import Mathlib

/-!
# Verification of the Dev-Memory achievement pipeline

Shallow embedding of the achievement-generation pipeline of the Dev-Memory
repository, together with theorems settling the frozen claims about it.

Embedded source files:
* `src/achievement_runtime.py`  (window validation, non-AI bullets, block splitting)
* `src/achievement_window_service.py`  (orchestrator `generate_achievement_window`)
* `src/ai_summarizer.py`  (summarization engine `summarize_repo_async` / `summarize_repo`)
* `src/pg_store.py`  (achievement store `prepare_repo_commits` and helpers)

Modelling conventions, stated once here:
* Python strings are Lean `String`s; `str.strip()/lstrip()/rstrip()/lower()`
  are embedded for the ASCII whitespace characters (space, TAB, LF, VT, FF, CR),
  which covers every string the pipeline manipulates.
* Python `datetime` values produced by `strptime("%Y-%m-%d %H:%M")` are embedded
  as `Civil` records plus minute counts since 0001-01-01 of the proleptic
  Gregorian calendar; all comparisons in `validate_window` are between
  datetimes carrying the same fixed timezone, so civil-minute arithmetic is exact.
  The wall clock `datetime.now()` is an explicit parameter `nowMin`.
* Cooperative `asyncio` code is embedded as sequential state passing; the
  semaphore gate of the orchestrator is modelled separately as a step relation.
* Python exceptions are `Except String` values; wall-clock latencies and the
  float `latency_s` field are not modelled (no claim mentions them).
* The commit collector `get_repo_achievements_in_window` is absent from the
  source snapshot (only its `_in_range` sibling exists); following the spec,
  its output is passed to the orchestrator as an explicit `repositories`
  parameter of structured repository entries.
-/

/-! ## Python string primitives -/

/-- ASCII whitespace as recognised by Python `str.strip` and `\s`
(space, TAB, LF, VT, FF, CR). -/
def isPySpaceChar (c : Char) : Bool :=
  c.toNat = 32 || c.toNat = 9 || c.toNat = 10 || c.toNat = 11 || c.toNat = 12 || c.toNat = 13

/-- Python `str.lstrip()`. -/
def pyLStrip (s : String) : String :=
  ⟨s.data.dropWhile isPySpaceChar⟩

/-- Python `str.rstrip()`. -/
def pyRStrip (s : String) : String :=
  ⟨(s.data.reverse.dropWhile isPySpaceChar).reverse⟩

/-- Python `str.strip()`. -/
def pyStrip (s : String) : String :=
  ⟨((s.data.dropWhile isPySpaceChar).reverse.dropWhile isPySpaceChar).reverse⟩

/-- Python `str.lower()` (ASCII case folding; the pipeline only lowercases
ASCII markers and conventional-commit prefixes). -/
def pyLower (s : String) : String :=
  ⟨s.data.map Char.toLower⟩

/-- Python `str.startswith` (kernel-reducible form). -/
def strStartsWith (s p : String) : Bool :=
  p.data.isPrefixOf s.data

/-- Python `str.splitlines()` restricted to the terminators `\n`, `\r`, `\r\n`
(the only ones LLM backends emit). -/
def pySplitlinesAux : List Char → List Char → List String
  | [], acc => if acc.isEmpty then [] else [⟨acc.reverse⟩]
  | '\n' :: rest, acc => (⟨acc.reverse⟩ : String) :: pySplitlinesAux rest []
  | '\r' :: '\n' :: rest, acc => (⟨acc.reverse⟩ : String) :: pySplitlinesAux rest []
  | '\r' :: rest, acc => (⟨acc.reverse⟩ : String) :: pySplitlinesAux rest []
  | c :: rest, acc => pySplitlinesAux rest (c :: acc)

def pySplitlines (s : String) : List String :=
  pySplitlinesAux s.data []

/-! ## Civil timestamps: `parse_wib_datetime` (achievement_runtime.py lines 59-66)

`datetime.strptime(s, "%Y-%m-%d %H:%M")` is embedded faithfully to CPython
`_strptime`: `%Y` is exactly four digits, `%m`/`%d`/`%H`/`%M` are one or two
digits with the value alternatives of `TimeRE`, a literal space in the format
matches one or more whitespace characters, the whole string must be consumed,
and the resulting triple must be a real calendar date (else `ValueError`). -/

structure Civil where
  year : Nat
  month : Nat
  day : Nat
  hour : Nat
  minute : Nat
deriving DecidableEq

def isLeapYear (y : Nat) : Bool :=
  (y % 4 = 0 && y % 100 ≠ 0) || y % 400 = 0

def daysInMonth (y m : Nat) : Nat :=
  if m = 2 then (if isLeapYear y then 29 else 28)
  else if m = 4 ∨ m = 6 ∨ m = 9 ∨ m = 11 then 30
  else 31

/-- Cumulative day count before month `m` in a non-leap year. -/
def cumDaysBeforeMonth (m : Nat) : Nat :=
  match m with
  | 1 => 0 | 2 => 31 | 3 => 59 | 4 => 90 | 5 => 120 | 6 => 151
  | 7 => 181 | 8 => 212 | 9 => 243 | 10 => 273 | 11 => 304 | 12 => 334
  | _ => 0

/-- Number of leap years in `1..y` (proleptic Gregorian). -/
def leapYearsUpTo (y : Nat) : Nat :=
  y / 4 - y / 100 + y / 400

/-- Minutes since 0001-01-01 00:00 of the proleptic Gregorian calendar. -/
def Civil.minutes (c : Civil) : Nat :=
  let days := 365 * (c.year - 1) + leapYearsUpTo (c.year - 1)
    + cumDaysBeforeMonth c.month
    + (if isLeapYear c.year && decide (2 < c.month) then 1 else 0)
    + (c.day - 1)
  days * 1440 + c.hour * 60 + c.minute

def digitVal (c : Char) : Nat := c.toNat - 48

/-- Read a one- or two-digit field (the `TimeRE` alternations always try the
two-digit alternatives first, and a two-digit run followed by more digits can
never match because the next format token is a non-digit literal). Returns the
value, the number of digits consumed and the rest. -/
def readField12 : List Char → Option (Nat × Nat × List Char)
  | a :: b :: rest =>
    if a.isDigit then
      if b.isDigit then some (digitVal a * 10 + digitVal b, 2, rest)
      else some (digitVal a, 1, b :: rest)
    else none
  | [a] => if a.isDigit then some (digitVal a, 1, []) else none
  | [] => none

/-- Field validity for `%m`: `1[0-2]|0[1-9]|[1-9]`. -/
def validMonthField (v w : Nat) : Bool :=
  if w = 2 then 1 ≤ v && v ≤ 12 else 1 ≤ v && v ≤ 9

/-- Field validity for `%d`: `3[01]|[12]\d|0[1-9]|[1-9]`. -/
def validDayField (v w : Nat) : Bool :=
  if w = 2 then 1 ≤ v && v ≤ 31 else 1 ≤ v && v ≤ 9

/-- Field validity for `%H`: `2[0-3]|[0-1]\d|\d`. -/
def validHourField (v w : Nat) : Bool :=
  if w = 2 then v ≤ 23 else true

/-- Field validity for `%M`: `[0-5]\d|\d`. -/
def validMinuteField (v w : Nat) : Bool :=
  if w = 2 then v ≤ 59 else true

/-- The format-literal space: one or more whitespace characters. -/
def readSpaces1 (l : List Char) : Option (List Char) :=
  match l with
  | c :: rest => if isPySpaceChar c then some (rest.dropWhile isPySpaceChar) else none
  | [] => none

def parseYmdHm (l : List Char) : Option Civil :=
  match l with
  | a :: b :: c :: d :: rest =>
    if a.isDigit && b.isDigit && c.isDigit && d.isDigit then
      let y := digitVal a * 1000 + digitVal b * 100 + digitVal c * 10 + digitVal d
      match rest with
      | '-' :: r1 =>
        match readField12 r1 with
        | some (mo, wm, r2) =>
          if validMonthField mo wm then
            match r2 with
            | '-' :: r3 =>
              match readField12 r3 with
              | some (dy, wd, r4) =>
                if validDayField dy wd then
                  match readSpaces1 r4 with
                  | some r5 =>
                    match readField12 r5 with
                    | some (hh, wh, r6) =>
                      if validHourField hh wh then
                        match r6 with
                        | ':' :: r7 =>
                          match readField12 r7 with
                          | some (mi, wmin, r8) =>
                            if validMinuteField mi wmin && r8.isEmpty then
                              if 1 ≤ y && dy ≤ daysInMonth y mo then
                                some ⟨y, mo, dy, hh, mi⟩
                              else none
                            else none
                          | none => none
                        | _ => none
                      else none
                    | none => none
                  | none => none
                else none
              | none => none
            | _ => none
          else none
        | none => none
      | _ => none
    else none
  | _ => none

/-- `parse_wib_datetime` (achievement_runtime.py lines 59-62): strip, then
`strptime("%Y-%m-%d %H:%M")`; `none` models the raised `ValueError`.
The `ZoneInfo("Asia/Jakarta")` attachment is a constant offset shared by every
datetime the caller compares, so it does not appear in the minute model. -/
def parse_wib_datetime (s : String) : Option Civil :=
  parseYmdHm (pyStrip s).data

/-! ## `validate_window` (achievement_runtime.py lines 69-88) -/

/-- `validate_window`: `.error msg` models the non-`None` error component,
`.ok (since_dt, until_dt)` the accepted pair. `nowMin` is
`datetime.now(tz=ZoneInfo("Asia/Jakarta"))` in minutes of the same civil frame. -/
def validate_window (since untl : String) (nowMin : Nat) : Except String (Civil × Civil) :=
  match parse_wib_datetime since, parse_wib_datetime untl with
  | some s, some u =>
    if u.minutes ≤ s.minutes then
      .error "Invalid window. since must be earlier than until."
    else if (u.minutes - s.minutes) / 1440 > 365 then
      .error "Window too large. Maximum allowed is 365 days."
    else if nowMin < s.minutes ∨ nowMin < u.minutes then
      .error "Datetimes in the future are not allowed."
    else .ok (s, u)
  | _, _ => .error "Invalid datetime format. Use YYYY-MM-DD HH:MM (WIB)."

def exceptIsOk {ε α : Type} : Except ε α → Bool
  | .ok _ => true
  | .error _ => false

def exceptDecEq {ε α : Type} [DecidableEq ε] [DecidableEq α] :
    (a b : Except ε α) → Decidable (a = b)
  | .ok x, .ok y =>
    if h : x = y then isTrue (by rw [h]) else isFalse (by intro hc; cases hc; exact h rfl)
  | .error x, .error y =>
    if h : x = y then isTrue (by rw [h]) else isFalse (by intro hc; cases hc; exact h rfl)
  | .ok _, .error _ => isFalse (by intro hc; cases hc)
  | .error _, .ok _ => isFalse (by intro hc; cases hc)

instance {ε α : Type} [DecidableEq ε] [DecidableEq α] : DecidableEq (Except ε α) :=
  exceptDecEq


/-- The acceptance condition exactly as claim C8 words it ("the span is at
most 365 days", i.e. at most `365*1440` minutes). This is the spec-worded
predicate that the code is compared against. -/
def window_accepts_claimC8 (since untl : String) (nowMin : Nat) : Bool :=
  match parse_wib_datetime since, parse_wib_datetime untl with
  | some s, some u =>
    decide (s.minutes < u.minutes ∧ u.minutes - s.minutes ≤ 365 * 1440 ∧
      s.minutes ≤ nowMin ∧ u.minutes ≤ nowMin)
  | _, _ => false

/-- The acceptance condition with the span bound the code actually enforces:
the whole-day floor of the span is at most 365 days. -/
def window_accepts_floorDays (since untl : String) (nowMin : Nat) : Bool :=
  match parse_wib_datetime since, parse_wib_datetime untl with
  | some s, some u =>
    decide (s.minutes < u.minutes ∧ (u.minutes - s.minutes) / 1440 ≤ 365 ∧
      s.minutes ≤ nowMin ∧ u.minutes ≤ nowMin)
  | _, _ => false

/-! ## Summarization engine (ai_summarizer.py)

The text-generation backend `ai_client.generate_ai_summary` is an oracle
parameter `backend : String → Nat → Except String String`: for the prompt and
the attempt number (the engine re-issues the identical prompt on every
attempt) it yields either the response text or the raised exception's text.
The store handle returned by `get_store()` together with the outcome of its
single `prepare_repo_commits` call is the parameter
`store : Option (Except String (List (Option String) × List (Option Nat)))`:
`none` models `get_store()` returning `None` (or `use_cache=False`),
`some (.error e)` a `prepare_repo_commits` call that raised, and
`some (.ok (cached, ids))` its returned pair. Achievement ids are `Option Nat`
(`none` models the empty-string placeholder ids). -/

/-- A commit payload as it appears in `detailed_commits`: either a structured
commit record (a Python dict with the keys the pipeline reads) or any other
value (`raw`), which the source code skips via `isinstance(c, dict)` checks. -/
inductive CommitVal where
  | obj (hash message date : String) (files : List String)
  | raw
deriving DecidableEq

def CommitVal.isObj : CommitVal → Bool
  | .obj _ _ _ _ => true
  | .raw => false

/-- `RepoLLMResult` (ai_summarizer.py lines 23-31) without the wall-clock
`latency_s` field. -/
structure RepoLLMResult where
  ok : Bool
  repo_name : String
  bullet_lines : List String
  token_estimate : Nat
  retries : Nat
  error : String
deriving DecidableEq

/-- `_estimate_tokens` (lines 37-41). -/
def estimate_tokens (text : String) : Nat :=
  let t := pyStrip text
  if t = "" then 0 else max 1 (t.length / 4)

/-- `_truncate_commit_message` (lines 44-53); `max_len` is always positive at
call sites, Nat zero models the `<= 0` guard. -/
def truncate_commit_message (msg : String) (maxLen : Nat) : String :=
  let s := pyStrip msg
  if maxLen = 0 then ""
  else if s.length ≤ maxLen then s
  else
    let cut := pyRStrip (s.take maxLen)
    if cut = "" then s.take maxLen else cut

/-- `_extract_bullets` (lines 109-130). -/
def extract_bullets (text : String) : List String :=
  let t := pyStrip text
  if t = "" then []
  else
    let lines := (pySplitlines t).filterMap
      (fun ln => if pyStrip ln = "" then none else some (pyRStrip ln))
    let bullets := lines.filter (fun ln => strStartsWith (pyLStrip ln) "-")
    bullets.filterMap (fun b =>
      let s0 := pyStrip b
      let s := if ¬ strStartsWith s0 "- " then
          (if strStartsWith s0 "-" then "- " ++ pyLStrip (s0.drop 1) else s0)
        else s0
      if strStartsWith (pyLower s) "- saya " then some s
      else if strStartsWith (pyLower s) "-saya " then some ("- Saya " ++ pyLStrip (s.drop 6))
      else if strStartsWith (pyLower s) "- saya" then some ("- Saya " ++ pyLStrip (s.drop 6))
      else none)

/-- `_compute_max_message_len` (lines 171-178); `Nat` subtraction models the
`max(0, ...)` clamp. -/
def compute_max_message_len (commitCount tokenBudget : Nat) : Nat :=
  if commitCount = 0 then 120
  else
    let available := tokenBudget - 400 - commitCount * 40
    let perCommitTokens := max 10 (available / commitCount)
    max 40 (min 220 (perCommitTokens * 4))

def squote : String := (Char.ofNat 39).toString

def buildPromptCommitLines (commits : List CommitVal) (maxMessageLen : Nat) : List String :=
  (commits.foldl (fun (st : Nat × List String) c =>
    match c with
    | .raw => st
    | .obj h m _ _ =>
      let idx := st.1 + 1
      (idx, st.2 ++ [toString idx ++ ". " ++ pyStrip h ++ " | "
        ++ truncate_commit_message m maxMessageLen])) (0, [])).2

/-- `_build_prompt` (lines 133-168). -/
def build_prompt (repoName startDate endDate : String) (commits : List CommitVal)
    (maxMessageLen : Nat) : String :=
  let period := startDate ++ " → " ++ endDate
  let parts : List String :=
    [ "Tulis daftar bullet Daily Standup untuk 1 repository saja."
    , "Gunakan Bahasa Indonesia yang natural. Technical terms tetap English."
    , "Setiap bullet harus dimulai dengan " ++ squote ++ "- Saya ..." ++ squote ++ "."
    , "Aturan wajib:"
    , "- Satu commit menghasilkan tepat satu bullet."
    , "- Jangan menggabungkan beberapa commit menjadi satu bullet."
    , "- Jangan menghapus commit kecil."
    , "- Jangan menambahkan angka/metric."
    , ""
    , "Repository: " ++ repoName
    , "Periode: " ++ period
    , ""
    , "Commit List (urut sesuai input):" ]
    ++ buildPromptCommitLines commits maxMessageLen
    ++ [ "", "Output hanya berupa bullet list tanpa heading." ]
  pyStrip (String.intercalate "\n" parts)

/-- `summarize_repo_once` (lines 181-198): the prompt and its token estimate. -/
def summarize_repo_once (repoName startDate endDate : String)
    (commits : List CommitVal) (tokenBudget : Nat) : String × Nat :=
  let maxLen := compute_max_message_len commits.length tokenBudget
  let prompt := build_prompt repoName startDate endDate commits maxLen
  (prompt, estimate_tokens prompt)

/-- The `(cached_bullets, achievement_ids)` pair after the store phase of
`summarize_repo_async` (lines 317-350): the all-`None` defaults unless the
store is present and its `prepare_repo_commits` call returned normally. -/
def cachedPrepared (store : Option (Except String (List (Option String) × List (Option Nat))))
    (n : Nat) : List (Option String) × List (Option Nat) :=
  match store with
  | some (.ok (cb, ids)) => (cb, ids)
  | some (.error _) => (List.replicate n none, List.replicate n none)
  | none => (List.replicate n none, List.replicate n none)

/-- `missing_indexes` (line 352): positions whose cached bullet is blank. -/
def missing_indexes_from (cached : List (Option String)) (i : Nat) : List Nat :=
  match cached with
  | [] => []
  | b :: rest =>
    if pyStrip (b.getD "") = "" then i :: missing_indexes_from rest (i + 1)
    else missing_indexes_from rest (i + 1)

def missing_indexes (cached : List (Option String)) : List Nat :=
  missing_indexes_from cached 0

/-- `commits_for_llm` (lines 366-370). -/
def commits_for_llm_of (store : Option (Except String (List (Option String) × List (Option Nat))))
    (commits : List CommitVal) : List CommitVal :=
  let missing := missing_indexes (cachedPrepared store commits.length).1
  if store.isSome ∧ missing ≠ [] then missing.map (fun i => commits.getD i CommitVal.raw)
  else commits

/-- `achievement_ids_for_llm` (lines 367-370). -/
def ids_for_llm_of (store : Option (Except String (List (Option String) × List (Option Nat))))
    (commits : List CommitVal) : List (Option Nat) :=
  let missing := missing_indexes (cachedPrepared store commits.length).1
  if store.isSome ∧ missing ≠ [] then missing.map (fun i => (cachedPrepared store commits.length).2.getD i none)
  else (cachedPrepared store commits.length).2

/-- Outcome of the attempt loop (lines 386-490): either the extracted bullets
with the retry counter at success, or the final error text and counter. -/
inductive LoopOut where
  | success (bullets : List String) (retries : Nat)
  | failure (err : String) (retries : Nat)
deriving DecidableEq

/-- The retry loop of `summarize_repo_async`: one backend call per iteration;
a raised backend exception retries while `retries < max_retries` (the
`asyncio.sleep` backoff has no observable effect in the model), a response with
insufficient bullet coverage likewise; otherwise the loop ends. `fuel` is the
number of retries still allowed, i.e. `max_retries - retries`; the Python
guard `retries >= max_retries` is exactly `fuel = 0`, so the recursion is
structural on `fuel`. -/
def llm_attempt_loop (gen : Nat → Except String String) (llmCount : Nat) :
    Nat → Nat → LoopOut
  | retries, fuel =>
    match gen retries with
    | .error e =>
      match fuel with
      | 0 => .failure e retries
      | f + 1 => llm_attempt_loop gen llmCount (retries + 1) f
    | .ok t =>
      let bullets := extract_bullets (pyStrip t)
      if llmCount ≤ bullets.length then .success bullets retries
      else
        match fuel with
        | 0 => .failure ("invalid bullet coverage bullets=" ++ toString bullets.length
            ++ " commits=" ++ toString llmCount) retries
        | f + 1 => llm_attempt_loop gen llmCount (retries + 1) f

/-- Splicing freshly generated bullets into the missing positions
(lines 454-458): `merged[src_idx] = fresh[out_idx]`, stopping when the fresh
list is exhausted. -/
def splice (base : List String) (idxs : List Nat) (fresh : List String) : List String :=
  (idxs.zip fresh).foldl (fun acc p => acc.set p.1 p.2) base

/-- Instrumented run record for one `summarize_repo_async` call: the returned
result, how many backend calls were made, and which store records were marked
completed (with their bullet) or failed. -/
structure AsyncRunLog where
  result : RepoLLMResult
  backend_calls : Nat
  mark_completed : List (Nat × String)
  mark_failed : List Nat
deriving DecidableEq

/-- `summarize_repo_async` (ai_summarizer.py lines 301-520). -/
def summarize_repo_async (repo_name start_date end_date : String)
    (commits : List CommitVal)
    (store : Option (Except String (List (Option String) × List (Option Nat))))
    (backend : String → Nat → Except String String)
    (max_retries : Nat := 2) (token_budget : Nat := 6000) : AsyncRunLog :=
  let fullCount := commits.length
  let cached0 := (cachedPrepared store fullCount).1
  let missing := missing_indexes cached0
  if store.isSome ∧ missing = [] ∧ 0 < fullCount then
    let res : RepoLLMResult :=
      ⟨true, repo_name, (cached0.map (fun b => pyStrip (b.getD ""))).take fullCount, 0, 0, ""⟩
    ⟨res, 0, [], []⟩
  else
    let commitsLLM := commits_for_llm_of store commits
    let idsLLM := ids_for_llm_of store commits
    let llmCount := commitsLLM.length
    let pt := summarize_repo_once repo_name start_date end_date commitsLLM token_budget
    match llm_attempt_loop (backend pt.1) llmCount 0 max_retries with
    | .success bullets retries =>
      let resBullets := bullets.take llmCount
      let completions := resBullets.enum.filterMap (fun p =>
        match idsLLM.getD p.1 none with
        | some aid => some (aid, p.2)
        | none => none)
      if store.isSome ∧ missing ≠ [] then
        let merged := splice (cached0.map (fun b => pyStrip (b.getD ""))) missing resBullets
        let res : RepoLLMResult := ⟨true, repo_name, merged.take fullCount, pt.2, retries, ""⟩
        ⟨res, retries + 1, completions, []⟩
      else
        let res : RepoLLMResult := ⟨true, repo_name, resBullets, pt.2, retries, ""⟩
        ⟨res, retries + 1, completions, []⟩
    | .failure e retries =>
      let res : RepoLLMResult :=
        ⟨false, repo_name, [], pt.2, retries, if e = "" then "LLM request failed" else e⟩
      ⟨res, retries + 1, [], idsLLM.filterMap id⟩

/-- The `NameError` text raised by `summarize_repo` (see `summarize_repo`). -/
def py_name_error_commits_for_llm : String :=
  "NameError: name commits_for_llm is not defined"

/-- `summarize_repo` (ai_summarizer.py lines 201-298), the synchronous engine.
Its body reads the in-process `_CACHE`; `cache_hit` is `_CACHE.get(key)`.
On a cache hit with `cached.ok` it returns the cached result (lines 216-227).
Every other execution reaches line 229, which calls `summarize_repo_once`
with `commits=commits_for_llm` — a name never bound in this function (it is
local to `summarize_repo_async` only) — so Python raises `NameError` before
any backend call. (Had it got further, the function also has no statement
after its `while` loop, so exhausting transport retries would fall off the
function end and return `None` instead of a `RepoLLMResult`.) -/
def summarize_repo (use_cache : Bool) (cache_hit : Option RepoLLMResult) :
    Except String RepoLLMResult :=
  match use_cache, cache_hit with
  | true, some r => if r.ok = true then .ok r else .error py_name_error_commits_for_llm
  | true, none => .error py_name_error_commits_for_llm
  | false, _ => .error py_name_error_commits_for_llm

/-! ## Achievement store (pg_store.py)

The achievements table `commit_achievements` is a list of rows plus a fresh-id
counter. Surrogate ids of `repositories` and `commits` are replaced by their
natural unique keys (`repositories.name` is unique; `commits` are unique per
`(repository_id, commit_hash)`), so a commit row is identified by the pair
`(repository name, stripped commit hash)`. The commit-row upsert only
overwrites the mutable commit columns, which no achievement operation reads,
so the commits table itself is not carried in the state. -/

structure AchRow where
  id : Nat
  commit_key : String × String
  payload_checksum : String
  processing_status : String
  ai_bullet : String
  prompt_version : String
deriving DecidableEq

structure PgDb where
  rows : List AchRow
  next_id : Nat
deriving DecidableEq

/-- `_achievement_invalidate_others` (pg_store.py lines 146-160):
`UPDATE ... SET processing_status = 'invalidated' WHERE commit_id = %s AND
payload_checksum <> %s`. -/
def achievement_invalidate_others (rows : List AchRow) (ck : String × String)
    (cs : String) : List AchRow :=
  rows.map (fun r =>
    if r.commit_key = ck ∧ r.payload_checksum ≠ cs then
      { r with processing_status := "invalidated" }
    else r)

/-- `_achievement_get` (lines 96-108): the unique row matching
`(commit_id, payload_checksum)`, if any. -/
def achievement_get (rows : List AchRow) (ck : String × String) (cs : String) :
    Option AchRow :=
  rows.find? (fun r => r.commit_key == ck && r.payload_checksum == cs)

/-- `_achievement_insert_pending` (lines 110-144): `INSERT ... ON CONFLICT
(commit_id, payload_checksum) DO NOTHING RETURNING id`, falling back to the
existing row's id when the row already exists. -/
def achievement_insert_pending (db : PgDb) (ck : String × String) (cs pv : String) :
    PgDb × Nat :=
  match achievement_get db.rows ck cs with
  | some r => (db, r.id)
  | none =>
    ({ rows := db.rows ++ [⟨db.next_id, ck, cs, "pending", "", pv⟩],
       next_id := db.next_id + 1 }, db.next_id)

/-- The loop body of `prepare_repo_commits` (pg_store.py lines 183-219) for one
commit with a non-empty hash: invalidate all records of this commit whose
checksum differs, then look up the record for the current checksum, then
return the cached bullet / record id, inserting a fresh `pending` record only
when the lookup found nothing. Returns the new store state, the cached value
for this position (`(existing.ai_bullet or "").strip() or None`) and the
achievement id. -/
def prepare_step (db : PgDb) (ck : String × String) (cs pv : String) :
    PgDb × Option String × Option Nat :=
  let rows1 := achievement_invalidate_others db.rows ck cs
  let db1 : PgDb := { db with rows := rows1 }
  match achievement_get rows1 ck cs with
  | some ex =>
    if ex.processing_status = "completed" then
      (db1, (if pyStrip ex.ai_bullet = "" then none else some (pyStrip ex.ai_bullet)),
        some ex.id)
    else (db1, none, some ex.id)
  | none =>
    let p := achievement_insert_pending db1 ck cs pv
    (p.1, none, some p.2)

/-- The commit loop of `prepare_repo_commits`: commits paired with their
payload checksums, in input order. A commit that is not a dict raises
`AttributeError` at `c.get("hash")` (the whole transaction aborts); a commit
with a blank hash is skipped, leaving `None` placeholders. -/
def prepare_commits_go (repoName pv : String) (db : PgDb) :
    List (CommitVal × String) →
    Except String (PgDb × List (Option String) × List (Option Nat))
  | [] => .ok (db, [], [])
  | (c, cs) :: rest =>
    match c with
    | .raw => .error "AttributeError: commit entry is not a dict"
    | .obj h _ _ _ =>
      let hh := pyStrip h
      if hh = "" then
        match prepare_commits_go repoName pv db rest with
        | .ok (db2, cb, ids) => .ok (db2, none :: cb, none :: ids)
        | .error e => .error e
      else
        let st := prepare_step db (repoName, hh) cs pv
        match prepare_commits_go repoName pv st.1 rest with
        | .ok (db2, cb, ids) => .ok (db2, st.2.1 :: cb, st.2.2 :: ids)
        | .error e => .error e

/-- `prepare_repo_commits` (pg_store.py lines 162-221): a single transaction
per repository. -/
def prepare_repo_commits (db : PgDb) (repository_name : String)
    (commits : List CommitVal) (payload_checksums : List String) (pv : String) :
    Except String (PgDb × List (Option String) × List (Option Nat)) :=
  if commits.length ≠ payload_checksums.length then
    .error "commits and payload_checksums length mismatch"
  else prepare_commits_go repository_name pv db (commits.zip payload_checksums)

/-! ## Orchestrator (achievement_window_service.py, achievement_runtime.py) -/

/-- A repository entry of the aggregator output (`_repo_raw_to_dict` shape):
`name`, `repo_path`, `commit_count_expected`, `commit_count`,
`detailed_commits`. -/
structure RepoEntry where
  name : String
  repo_path : String
  commit_count_expected : Int
  commit_count : Int
  detailed_commits : List CommitVal
deriving DecidableEq

/-- `_clean_commit_message` inside `build_repo_task_lines_non_ai`
(achievement_runtime.py lines 167-174): strip the first matching
conventional-commit prefix. -/
def conv_prefixes : List String :=
  ["feat:", "fix:", "refactor:", "test:", "chore:", "perf:", "ci:"]

def stripConvPrefix (s low : String) : List String → String
  | [] => s
  | p :: rest => if strStartsWith low p then pyStrip (s.drop p.length)
                 else stripConvPrefix s low rest

def clean_commit_message (msg : String) : String :=
  let s := pyStrip msg
  stripConvPrefix s (pyLower s) conv_prefixes

/-- `build_repo_task_lines_non_ai` (achievement_runtime.py lines 162-185):
one deterministic `- Saya ...` line per dict commit, built from the cleaned
commit message (placeholder text when the message is blank). -/
def build_repo_task_lines_non_ai (commits : List CommitVal) : List String :=
  commits.filterMap (fun c =>
    match c with
    | .raw => none
    | .obj _ m _ _ =>
      let msg := pyStrip (clean_commit_message m)
      some ("- Saya " ++ (if msg = "" then "melakukan perubahan kode" else msg)))

/-- `_buf_text` of `split_repo_block`. -/
def bufText (arr : List String) : String :=
  pyStrip (String.intercalate "\n" arr)

/-- One iteration (index > 0) of the `split_repo_block` loop
(achievement_runtime.py lines 122-147). -/
def splitStep (heading : String) (limit : Nat)
    (st : List (List String) × List String) (ln : String) :
    List (List String) × List String :=
  let chunks := st.1
  let buf := st.2
  let cand := bufText (buf ++ [ln])
  if cand.length ≤ limit then (chunks, buf ++ [ln])
  else if 1 < buf.length then (chunks ++ [buf], [heading, ln])
  else
    let chunks1 := chunks ++ [buf]
    if (bufText [heading, ln]).length ≤ limit then (chunks1, [heading, ln])
    else if strStartsWith (pyStrip ln) "- " then
      (chunks1 ++ [[heading, ⟨ln.data.take (limit - heading.length - 1)⟩]], [heading])
    else (chunks1 ++ [[⟨ln.data.take limit⟩]], [heading])

/-- `split_repo_block` (achievement_runtime.py lines 109-159). -/
def split_repo_block (repo_name : String) (task_lines : List String)
    (limit : Nat) : List String :=
  let heading := pyStrip ("## Repository: " ++ repo_name)
  let lines := heading ::
    (task_lines.filterMap (fun ln => if pyStrip ln = "" then none else some (pyRStrip ln)))
  let st := (lines.drop 1).foldl (splitStep heading limit) ([], [heading])
  let chunks := st.1 ++ [st.2]
  chunks.enum.map (fun p =>
    if 0 < p.1 then bufText p.2 ++ "\n\n(lanjutan...)" else bufText p.2)

/-- `_repo_markdown` (achievement_window_service.py lines 44-46). -/
def repo_markdown (repo_name : String) (bullets : List String) : String :=
  pyStrip (String.intercalate "\n\n" (split_repo_block repo_name bullets 120000))

/-- One per-repository result entry of the orchestrator output. -/
structure RepoOut where
  repo_name : String
  commits_count : Nat
  bullets : List String
  markdown : String
  source : String
deriving DecidableEq

/-- `_process_repo` (achievement_window_service.py lines 94-140). `client`
tells whether an AI client was loaded; `summarize` is the
`summarize_repo_async` call made for this repository (its store handle,
backend and budgets are fixed by the enclosing request). -/
def process_repo (client : Bool) (summarize : RepoEntry → RepoLLMResult)
    (repo : RepoEntry) : Option RepoOut :=
  let repoName := pyStrip repo.name
  let commitCount := repo.detailed_commits.length
  if repoName = "" ∨ commitCount = 0 then none
  else if client = false then
    let bullets := (build_repo_task_lines_non_ai repo.detailed_commits).take commitCount
    some ⟨repoName, commitCount, bullets, repo_markdown repoName bullets, "non_ai"⟩
  else
    let res := summarize repo
    if res.ok = true ∧ commitCount ≤ res.bullet_lines.length then
      let bullets := res.bullet_lines.take commitCount
      some ⟨repoName, commitCount, bullets, repo_markdown repoName bullets, "llm"⟩
    else
      let bullets := (build_repo_task_lines_non_ai repo.detailed_commits).take commitCount
      some ⟨repoName, commitCount, bullets, repo_markdown repoName bullets, "non_ai_fallback"⟩

/-- `_validate_repo_integrity` (achievement_window_service.py lines 25-41):
true when the entry violates `expected == count == len(detailed_commits)`. -/
def integrity_mismatch (r : RepoEntry) : Bool :=
  ¬ (r.commit_count_expected = r.commit_count ∧
     r.commit_count = (r.detailed_commits.length : Int))

def integrity_error_msg (r : RepoEntry) : String :=
  "integrity mismatch repo=" ++ r.name
    ++ " expected=" ++ toString r.commit_count_expected
    ++ " count=" ++ toString r.commit_count
    ++ " detailed=" ++ toString (r.detailed_commits.length : Int)

/-- The integrity pass over all repositories (lines 76-78): the error raised
at the first violating entry, if any. -/
def first_integrity_error (repos : List RepoEntry) : Option String :=
  repos.findSome? (fun r =>
    if integrity_mismatch r then some (integrity_error_msg r) else none)

inductive GenError where
  | validation (msg : String)
  | integrity (msg : String)
deriving DecidableEq

structure GenResult where
  ok : Bool
  since : String
  until_ : String
  markdown : String
  repositories : List RepoOut
deriving DecidableEq

/-- Instrumentation: how many commit-collection calls and per-repository
engine invocations a request performed. -/
structure GenCounters where
  collect_calls : Nat
  summarize_calls : Nat
deriving DecidableEq

def pad2 (n : Nat) : String := if n < 10 then "0" ++ toString n else toString n

def pad4 (n : Nat) : String :=
  if n < 10 then "000" ++ toString n
  else if n < 100 then "00" ++ toString n
  else if n < 1000 then "0" ++ toString n
  else toString n

/-- `dt.strftime("%Y-%m-%d %H:%M")`. -/
def fmtCivil (c : Civil) : String :=
  pad4 c.year ++ "-" ++ pad2 c.month ++ "-" ++ pad2 c.day ++ " "
    ++ pad2 c.hour ++ ":" ++ pad2 c.minute

/-- The number of repositories whose `_process_repo` task actually invokes
`summarize_repo_async` (a loaded client, a non-blank name and at least one
commit). -/
def summarize_call_count (client : Bool) (repos : List RepoEntry) : Nat :=
  (repos.filter (fun r =>
    client && (pyStrip r.name != "") && (decide (0 < r.detailed_commits.length)))).length

/-- `generate_achievement_window` (achievement_window_service.py lines 49-175).
`nowMin` is the wall clock of `validate_window`; `repositories` is the output
of the collector `get_repo_achievements_in_window` (absent from the source
snapshot; per the spec it returns one structured entry per tracked repository);
`client`/`summarize` are as in `process_repo`. The first component is the
returned document or the raised error; the counters instrument how far the
request progressed. -/
def generate_achievement_window (since untl : String) (nowMin : Nat)
    (repositories : List RepoEntry) (client : Bool)
    (summarize : RepoEntry → RepoLLMResult) :
    Except GenError GenResult × GenCounters :=
  match validate_window since untl nowMin with
  | .error e => (.error (.validation e), ⟨0, 0⟩)
  | .ok sudt =>
    if repositories = [] then
      (.ok ⟨true, since, untl,
        "No development activity found in selected window.", []⟩, ⟨1, 0⟩)
    else
      match first_integrity_error repositories with
      | some m => (.error (.integrity m), ⟨1, 0⟩)
      | none =>
        let header := "## Daily Standup (" ++ fmtCivil sudt.1 ++ " WIB → "
          ++ fmtCivil sudt.2 ++ " WIB)"
        let outs := repositories.filterMap (process_repo client summarize)
        let mds := (outs.map (fun r => pyStrip r.markdown)).filter (fun s => s ≠ "")
        let markdown := if mds = [] then
            "No development activity found in selected window."
          else pyStrip (String.intercalate "\n\n" (header :: mds))
        (.ok ⟨true, since, untl, markdown, outs⟩,
          ⟨1, summarize_call_count client repositories⟩)

def total_commits_out (g : GenResult) : Nat :=
  (g.repositories.map (fun r => r.commits_count)).sum

def total_bullets_out (g : GenResult) : Nat :=
  (g.repositories.map (fun r => r.bullets.length)).sum

/-- Totals of a returned document (`none` when the request raised). -/
def genTotals (r : Except GenError GenResult) : Option (Nat × Nat) :=
  match r with
  | .ok g => some (total_commits_out g, total_bullets_out g)
  | .error _ => none

/-! ## Concurrency gate (achievement_window_service.py lines 88-102, 142-147)

`max_concurrency = max(1, env_int("LLM_MAX_CONCURRENCY", 3))` and
`sem = asyncio.Semaphore(max_concurrency)`; every `_process_repo` body runs
entirely inside `async with sem`. Cooperative scheduling of the spawned tasks
is modelled as a step relation over a counter state: a task is `waiting`
until it acquires the gate, `running` while it holds it, `finished` after
release. `asyncio.Semaphore(k)` admits an acquire only while fewer than `k`
holders exist, which is the side condition of `acquire`. -/

/-- `max(1, env_int("LLM_MAX_CONCURRENCY", 3))`: the configured value if the
environment variable is set and parses as an integer, else the default 3,
floored at 1. -/
def max_concurrency (envVal : Option Int) : Nat :=
  (max 1 (envVal.getD 3)).toNat

structure SemState where
  waiting : Nat
  running : Nat
  finished : Nat
deriving DecidableEq

inductive SemStep (limit : Nat) : SemState → SemState → Prop where
  | acquire (s : SemState) : 0 < s.waiting → s.running < limit →
      SemStep limit s ⟨s.waiting - 1, s.running + 1, s.finished⟩
  | release (s : SemState) : 0 < s.running →
      SemStep limit s ⟨s.waiting, s.running - 1, s.finished + 1⟩

/-- States reachable from `n` scheduled repository tasks, none started. -/
def SemReachable (limit n : Nat) (s : SemState) : Prop :=
  Relation.ReflTransGen (SemStep limit) ⟨n, 0, 0⟩ s

/-! ## Concrete example inputs used by witnesses and counterexamples -/

/-- A wall clock for examples: 2026-10-12 00:00 civil time. -/
def nowExample : Nat := Civil.minutes ⟨2026, 10, 12, 0, 0⟩

/-- An engine oracle that always reports failure (its value is irrelevant for
the paths exercised). -/
def summarizeNone : RepoEntry → RepoLLMResult := fun _ => ⟨false, "", [], 0, 0, ""⟩

/-- A repository entry whose `detailed_commits` contains a non-dict element;
its counts are internally consistent, so the integrity pass accepts it. -/
def repoMixedCommits : RepoEntry :=
  ⟨"r1", "/p", 2, 2, [.obj "h1" "feat: add x" "d" [], .raw]⟩

/-- A repository entry violating `expected == count == len(detailed_commits)`. -/
def repoMismatch : RepoEntry :=
  ⟨"r1", "/p", 5, 4,
    [.obj "h1" "m" "d" [], .obj "h2" "m" "d" [], .obj "h3" "m" "d" [], .obj "h4" "m" "d" []]⟩

/-- A well-formed single-commit repository entry. -/
def repoSingle : RepoEntry := ⟨"r1", "/p", 1, 1, [.obj "h1" "feat: add login" "d" []]⟩

def genDefault : GenResult := ⟨false, "", "", "", []⟩

/-- Store responses and backends for concrete engine runs. -/
def storeAllCached : Option (Except String (List (Option String) × List (Option Nat))) :=
  some (.ok ([some "- Saya a", some "- Saya b"], [some 1, some 2]))

def storePartial : Option (Except String (List (Option String) × List (Option Nat))) :=
  some (.ok ([some "- Saya cached", none], [some 1, some 2]))

def commitsTwo : List CommitVal := [.obj "h1" "m1" "d" [], .obj "h2" "m2" "d" []]

def commitsOne : List CommitVal := [.obj "h1" "m1" "d" []]

def backendBoom : String → Nat → Except String String := fun _ _ => .error "boom"

def backendBlank : String → Nat → Except String String := fun _ _ => .ok ""

def backendFresh : String → Nat → Except String String := fun _ _ => .ok "- Saya fresh"

/-- A store state with two records for the same commit: an outdated checksum
and the current one, both completed. -/
def dbTwoChecksums : PgDb :=
  ⟨[⟨1, ("repo", "h"), "old", "completed", "- Saya old", "1"⟩,
    ⟨2, ("repo", "h"), "new", "completed", "- Saya new", "1"⟩], 7⟩

/-- The orchestrator run used by the C4 witness. -/
def c4ExampleRun : Except GenError GenResult :=
  (generate_achievement_window "2026-03-10 09:00" "2026-03-10 10:00" nowExample
    [repoSingle] false summarizeNone).1

/-- The single repository entry produced by that run. -/
def repoSingleEntry : RepoOut :=
  (process_repo false summarizeNone repoSingle).getD ⟨"", 0, [], "", ""⟩

/-! ## Claim theorems and supporting lemmas -/

/-- **C8 counterexample.** The claim states that `validate_window` accepts iff
(among the other conditions) the span is at most 365 days. The window
2025-01-01 00:00 → 2026-01-01 10:00 spans 365 days and 10 hours — more than
365 days — yet the code accepts it, because line 81 of achievement_runtime.py
compares the *whole-day floor* `(until_dt - since_dt).days` against 365.
So acceptance is not equivalent to the claimed condition. -/
theorem c8_counterexample :
    exceptIsOk (validate_window "2025-01-01 00:00" "2026-01-01 10:00" nowExample) = true ∧
    window_accepts_claimC8 "2025-01-01 00:00" "2026-01-01 10:00" nowExample = false := by
  constructor
  · decide
  · decide

/-- **C8 (amended).** `validate_window` accepts a window iff both inputs parse
as `YYYY-MM-DD HH:MM` civil timestamps, `since` is strictly earlier than
`until`, the whole-day floor of the span is at most 365 days (equivalently the
span is under 366 days), and neither timestamp is after `now`; and on any
violation `generate_achievement_window` raises the `ValidationError`
immediately, before any commit collection (zero collector calls, zero engine
calls). -/
theorem c8_amended :
    (∀ (since untl : String) (nowMin : Nat),
      exceptIsOk (validate_window since untl nowMin) = true ↔
        window_accepts_floorDays since untl nowMin = true) ∧
    (∀ (since untl : String) (nowMin : Nat) (repos : List RepoEntry) (client : Bool)
        (summarize : RepoEntry → RepoLLMResult) (e : String),
      validate_window since untl nowMin = .error e →
      generate_achievement_window since untl nowMin repos client summarize =
        (.error (.validation e), ⟨0, 0⟩)) := by
  constructor
  · intro s u n
    cases hs : parse_wib_datetime s <;> cases hu : parse_wib_datetime u <;>
      simp only [validate_window, window_accepts_floorDays, hs, hu]
    · simp [exceptIsOk]
    · simp [exceptIsOk]
    · simp [exceptIsOk]
    · rename_i sc uc
      split_ifs with h1 h2 h3 <;> simp [exceptIsOk, decide_eq_true_eq] <;> omega
  · intro s u n repos client summarize e h
    simp [generate_achievement_window, h]

/-- **C8 witness** for the amended theorem: a malformed `since` aborts the
request before collection. -/
theorem c8_witness :
    generate_achievement_window "bad" "2026-01-01 10:00" 0 [] false summarizeNone =
      (.error (.validation "Invalid datetime format. Use YYYY-MM-DD HH:MM (WIB)."), ⟨0, 0⟩) :=
  c8_amended.2 "bad" "2026-01-01 10:00" 0 [] false summarizeNone _ (by decide)

/-- **C10.** In every schedule of the semaphore-gated repository tasks, the
number of simultaneously running summarization tasks never exceeds
`max_concurrency` — which is 3 by default, the configured value otherwise,
floored at 1 — regardless of how many tasks were scheduled. -/
theorem c10_concurrency_bound :
    (∀ (envVal : Option Int) (n : Nat) (s : SemState),
        SemReachable (max_concurrency envVal) n s →
        s.running ≤ max_concurrency envVal) ∧
    max_concurrency none = 3 ∧
    (∀ i : Int, 1 ≤ max_concurrency (some i)) ∧
    (∀ i : Int, i ≤ 1 → max_concurrency (some i) = 1) := by
  refine ⟨?_, by decide, ?_, ?_⟩
  · intro envVal n s h
    induction h with
    | refl => simp
    | tail hb step ih =>
      cases step with
      | acquire h1 h2 => exact h2
      | release h1 => exact Nat.le_trans (Nat.sub_le _ _) ih
  · intro i
    simp only [max_concurrency, Option.getD]
    omega
  · intro i hi
    simp only [max_concurrency, Option.getD]
    omega

/-- **C10 witness**: one scheduled task, initial state, default limit; and the
flooring at 1 for a configured value of 0. -/
theorem c10_witness :
    SemState.running ⟨1, 0, 0⟩ ≤ max_concurrency none ∧
    max_concurrency (some 0) = 1 :=
  ⟨c10_concurrency_bound.1 none 1 ⟨1, 0, 0⟩ Relation.ReflTransGen.refl,
   c10_concurrency_bound.2.2.2 0 (by decide)⟩

/-- **C7.** Claim: neither engine entry point ever raises; backend failures
are converted into an `ok=false` result. The asynchronous engine does this,
but the synchronous `summarize_repo` cannot: every execution that is not an
in-process cache hit reaches line 229 of ai_summarizer.py, which reads the
name `commits_for_llm` that is bound only inside `summarize_repo_async`, so
Python raises `NameError` to the caller before any backend call — with
`use_cache=False`, and equally on any cache miss. -/
theorem c7_summarize_repo_raises :
    summarize_repo false none = .error py_name_error_commits_for_llm ∧
    summarize_repo true none = .error py_name_error_commits_for_llm :=
  ⟨rfl, rfl⟩

/-- Status changes in `achievement_invalidate_others` never touch row ids. -/
theorem invalidate_map_id (rows : List AchRow) (ck : String × String) (cs : String) :
    (achievement_invalidate_others rows ck cs).map (fun r => r.id) =
      rows.map (fun r => r.id) := by
  unfold achievement_invalidate_others
  rw [List.map_map]
  apply List.map_congr_left
  intro r _
  by_cases hc : r.commit_key = ck ∧ r.payload_checksum ≠ cs <;> simp [hc]

/-- `prepare_step` only rewrites statuses in place or appends one fresh
`pending` row (and appends only when the post-invalidation lookup was empty). -/
theorem prepare_step_ids (db : PgDb) (ck : String × String) (cs pv : String) :
    (prepare_step db ck cs pv).1.rows.map (fun r => r.id) =
        db.rows.map (fun r => r.id) ∨
    ((prepare_step db ck cs pv).1.rows.map (fun r => r.id) =
        db.rows.map (fun r => r.id) ++ [db.next_id] ∧
      achievement_get (achievement_invalidate_others db.rows ck cs) ck cs = none) := by
  cases h : achievement_get (achievement_invalidate_others db.rows ck cs) ck cs with
  | some ex =>
    left
    simp only [prepare_step, h]
    split_ifs <;> simpa using invalidate_map_id db.rows ck cs
  | none =>
    right
    constructor
    · simp only [prepare_step, h, achievement_insert_pending]
      simp [invalidate_map_id db.rows ck cs]
    · rfl

/-- The commit loop of `prepare_repo_commits` never deletes achievement rows:
the final id sequence extends the initial one. -/
theorem prepare_go_ids (repoName pv : String) :
    ∀ (ps : List (CommitVal × String)) (db : PgDb)
      (out : PgDb × List (Option String) × List (Option Nat)),
      prepare_commits_go repoName pv db ps = .ok out →
      ∃ tail, out.1.rows.map (fun r => r.id) = db.rows.map (fun r => r.id) ++ tail := by
  intro ps
  induction ps with
  | nil =>
    intro db out h
    simp only [prepare_commits_go] at h
    cases h
    exact ⟨[], by simp⟩
  | cons p rest ih =>
    intro db out h
    obtain ⟨c, cs⟩ := p
    cases c with
    | raw => simp [prepare_commits_go] at h
    | obj hsh m d fs =>
      simp only [prepare_commits_go] at h
      by_cases hh : pyStrip hsh = ""
      · rw [if_pos hh] at h
        cases hrec : prepare_commits_go repoName pv db rest with
        | ok w =>
          obtain ⟨db2, cb, ids⟩ := w
          rw [hrec] at h
          cases h
          simpa using ih db (db2, cb, ids) hrec
        | error e => rw [hrec] at h; cases h
      · rw [if_neg hh] at h
        cases hrec : prepare_commits_go repoName pv
            (prepare_step db (repoName, pyStrip hsh) cs pv).1 rest with
        | ok w =>
          obtain ⟨db2, cb, ids⟩ := w
          rw [hrec] at h
          cases h
          obtain ⟨tail, htail⟩ := ih _ (db2, cb, ids) hrec
          rcases prepare_step_ids db (repoName, pyStrip hsh) cs pv with hs | hs
          · exact ⟨tail, by rw [htail, hs]⟩
          · exact ⟨[db.next_id] ++ tail, by rw [htail, hs.1, List.append_assoc]⟩
        | error e => rw [hrec] at h; cases h

/-- **C2.** For each commit processed by `prepare_repo_commits` (its loop body
`prepare_step`): every record of that commit whose checksum differs from the
current one is set to `invalidated`, in the state on which the subsequent
lookup runs (invalidate-then-lookup ordering); the lookup can only return a
record carrying the commit's current checksum; a cached bullet is only served
from a `completed` record for the current checksum; rows are never deleted —
the step either keeps the id sequence or appends one fresh `pending` id, and
it appends only when the post-invalidation lookup found nothing; and the whole
`prepare_repo_commits` call likewise only extends the id sequence. -/
theorem c2_invalidate_then_lookup (db : PgDb) (ck : String × String) (cs pv : String) :
    (∀ r ∈ achievement_invalidate_others db.rows ck cs,
        r.commit_key = ck → r.payload_checksum ≠ cs →
        r.processing_status = "invalidated") ∧
    (∀ r, achievement_get (achievement_invalidate_others db.rows ck cs) ck cs = some r →
        r.payload_checksum = cs ∧ r.commit_key = ck) ∧
    (∀ b, (prepare_step db ck cs pv).2.1 = some b →
        ∃ r, achievement_get (achievement_invalidate_others db.rows ck cs) ck cs = some r ∧
          r.processing_status = "completed" ∧ b = pyStrip r.ai_bullet) ∧
    ((prepare_step db ck cs pv).1.rows.map (fun r => r.id) =
        db.rows.map (fun r => r.id) ∨
      ((prepare_step db ck cs pv).1.rows.map (fun r => r.id) =
          db.rows.map (fun r => r.id) ++ [db.next_id] ∧
        achievement_get (achievement_invalidate_others db.rows ck cs) ck cs = none)) ∧
    (∀ (repoName : String) (commits : List CommitVal) (checks : List String)
        (out : PgDb × List (Option String) × List (Option Nat)),
      prepare_repo_commits db repoName commits checks pv = .ok out →
      ∃ tail, out.1.rows.map (fun r => r.id) = db.rows.map (fun r => r.id) ++ tail) := by
  refine ⟨?_, ?_, ?_, prepare_step_ids db ck cs pv, ?_⟩
  · intro r hr h1 h2
    unfold achievement_invalidate_others at hr
    rw [List.mem_map] at hr
    obtain ⟨r0, _, heq⟩ := hr
    by_cases hc : r0.commit_key = ck ∧ r0.payload_checksum ≠ cs
    · rw [if_pos hc] at heq
      rw [← heq]
    · rw [if_neg hc] at heq
      subst heq
      exact absurd ⟨h1, h2⟩ hc
  · intro r h
    have hp := List.find?_some h
    simp only [Bool.and_eq_true, beq_iff_eq] at hp
    exact ⟨hp.2, hp.1⟩
  · intro b hb
    cases h : achievement_get (achievement_invalidate_others db.rows ck cs) ck cs with
    | some ex =>
      simp only [prepare_step, h] at hb
      by_cases hst : ex.processing_status = "completed"
      · rw [if_pos hst] at hb
        by_cases hbl : pyStrip ex.ai_bullet = ""
        · rw [if_pos hbl] at hb
          simp at hb
        · rw [if_neg hbl] at hb
          simp at hb
          exact ⟨ex, rfl, hst, hb.symm⟩
      · rw [if_neg hst] at hb
        simp at hb
    | none =>
      simp only [prepare_step, h] at hb
      simp at hb
  · intro repoName commits checks out h
    unfold prepare_repo_commits at h
    by_cases hl : commits.length ≠ checks.length
    · rw [if_pos hl] at h; cases h
    · rw [if_neg hl] at h
      exact prepare_go_ids repoName pv (commits.zip checks) db out h

/-- **C2 witness**: with an outdated and a current record present, the
post-invalidation lookup returns the current-checksum record. -/
theorem c2_witness :
    AchRow.payload_checksum ⟨2, ("repo", "h"), "new", "completed", "- Saya new", "1"⟩ = "new" ∧
    AchRow.commit_key ⟨2, ("repo", "h"), "new", "completed", "- Saya new", "1"⟩ = ("repo", "h") :=
  (c2_invalidate_then_lookup dbTwoChecksums ("repo", "h") "new" "1").2.1
    ⟨2, ("repo", "h"), "new", "completed", "- Saya new", "1"⟩ (by decide)

/-! Supporting lemmas about `missing_indexes`, `splice` and the attempt loop. -/

theorem missing_indexes_from_mem (c : List (Option String)) :
    ∀ (i j : Nat), j ∈ missing_indexes_from c i → i ≤ j ∧ j < i + c.length := by
  induction c with
  | nil => intro i j h; simp [missing_indexes_from] at h
  | cons b rest ih =>
    intro i j h
    simp only [missing_indexes_from] at h
    by_cases hb : pyStrip (b.getD "") = ""
    · rw [if_pos hb] at h
      rcases List.mem_cons.mp h with h | h
      · subst h; simp
      · have := ih (i + 1) j h
        simp only [List.length_cons]
        omega
    · rw [if_neg hb] at h
      have := ih (i + 1) j h
      simp only [List.length_cons]
      omega

theorem missing_indexes_from_nodup (c : List (Option String)) :
    ∀ i, (missing_indexes_from c i).Nodup := by
  induction c with
  | nil => intro i; simp [missing_indexes_from]
  | cons b rest ih =>
    intro i
    simp only [missing_indexes_from]
    by_cases hb : pyStrip (b.getD "") = ""
    · rw [if_pos hb]
      refine List.nodup_cons.mpr ⟨?_, ih (i + 1)⟩
      intro hmem
      have := missing_indexes_from_mem rest (i + 1) i hmem
      omega
    · rw [if_neg hb]
      exact ih (i + 1)

theorem missing_indexes_from_nil_iff (c : List (Option String)) :
    ∀ i, (missing_indexes_from c i = [] ↔ ∀ b ∈ c, pyStrip (b.getD "") ≠ "") := by
  induction c with
  | nil => intro i; simp [missing_indexes_from]
  | cons b rest ih =>
    intro i
    simp only [missing_indexes_from]
    by_cases hb : pyStrip (b.getD "") = ""
    · rw [if_pos hb]
      simp [hb]
    · rw [if_neg hb]
      rw [ih (i + 1)]
      simp [hb]

theorem missing_indexes_from_replicate (n : Nat) :
    ∀ i, missing_indexes_from (List.replicate n (none : Option String)) i =
      List.range' i n := by
  induction n with
  | zero => intro i; simp [missing_indexes_from]
  | succ m ih =>
    intro i
    rw [List.replicate_succ]
    simp only [missing_indexes_from]
    rw [if_pos (by decide)]
    rw [ih (i + 1), List.range'_succ]

theorem foldl_set_length (ps : List (Nat × String)) :
    ∀ base : List String,
      (ps.foldl (fun a p => a.set p.1 p.2) base).length = base.length := by
  induction ps with
  | nil => intro base; rfl
  | cons p rest ih =>
    intro base
    rw [List.foldl_cons, ih, List.length_set]

theorem splice_length (base : List String) (idxs : List Nat) (fresh : List String) :
    (splice base idxs fresh).length = base.length :=
  foldl_set_length _ base

theorem foldl_set_getElem?_ne (ps : List (Nat × String)) :
    ∀ (base : List String) (i : Nat), (∀ p ∈ ps, p.1 ≠ i) →
      (ps.foldl (fun a p => a.set p.1 p.2) base)[i]? = base[i]? := by
  induction ps with
  | nil => intro base i _; rfl
  | cons p rest ih =>
    intro base i hne
    rw [List.foldl_cons, ih _ i (fun q hq => hne q (List.mem_cons_of_mem _ hq)),
      List.getElem?_set_ne (hne p (List.mem_cons_self _ _))]

theorem splice_getElem?_not_mem (base : List String) (idxs : List Nat)
    (fresh : List String) (i : Nat) (h : i ∉ idxs) :
    (splice base idxs fresh)[i]? = base[i]? := by
  apply foldl_set_getElem?_ne
  intro p hp hpi
  exact h (hpi ▸ (List.of_mem_zip hp).1)

theorem splice_getElem?_rank (idxs : List Nat) :
    ∀ (fresh base : List String) (k : Nat), idxs.Nodup → k < fresh.length →
      fresh.length = idxs.length → (∀ j ∈ idxs, j < base.length) →
      (splice base idxs fresh)[idxs.getD k 0]? = fresh[k]? := by
  induction idxs with
  | nil =>
    intro fresh base k _ hk hlen
    rw [hlen] at hk
    simp at hk
  | cons a rest ih =>
    intro fresh base k hnd hk hlen hb
    cases fresh with
    | nil => simp at hk
    | cons f frest =>
      cases k with
      | zero =>
        simp only [splice, List.zip_cons_cons, List.foldl_cons, List.getD_cons_zero]
        have ha : a ∉ rest := (List.nodup_cons.mp hnd).1
        rw [foldl_set_getElem?_ne _ _ _
          (fun p hp heq => ha (by rw [← heq]; exact (List.of_mem_zip hp).1))]
        rw [List.getElem?_set_eq_of_lt f (hb a (List.mem_cons_self _ _))]
        simp
      | succ k' =>
        simp only [splice, List.zip_cons_cons, List.foldl_cons, List.getD_cons_succ,
          List.getElem?_cons_succ]
        exact ih frest (base.set a f) k' (List.nodup_cons.mp hnd).2
          (by simpa using hk) (by simpa using hlen)
          (fun j hj => by rw [List.length_set]; exact hb j (List.mem_cons_of_mem _ hj))

theorem loop_success_coverage (gen : Nat → Except String String) (llmCount : Nat) :
    ∀ (fuel retries : Nat) (bullets : List String) (r : Nat),
      llm_attempt_loop gen llmCount retries fuel = .success bullets r →
      llmCount ≤ bullets.length := by
  intro fuel
  induction fuel with
  | zero =>
    intro retries bullets r h
    rw [llm_attempt_loop.eq_def] at h
    dsimp only at h
    cases hg : gen retries with
    | error e =>
      rw [hg] at h
      dsimp only at h
      cases h
    | ok t =>
      rw [hg] at h
      dsimp only at h
      by_cases hc : llmCount ≤ (extract_bullets (pyStrip t)).length
      · rw [if_pos hc] at h
        cases h
        exact hc
      · rw [if_neg hc] at h
        cases h
  | succ f ih =>
    intro retries bullets r h
    rw [llm_attempt_loop.eq_def] at h
    dsimp only at h
    cases hg : gen retries with
    | error e =>
      rw [hg] at h
      dsimp only at h
      exact ih (retries + 1) bullets r h
    | ok t =>
      rw [hg] at h
      dsimp only at h
      by_cases hc : llmCount ≤ (extract_bullets (pyStrip t)).length
      · rw [if_pos hc] at h
        cases h
        exact hc
      · rw [if_neg hc] at h
        exact ih (retries + 1) bullets r h

theorem loop_coverage_fail (gen : Nat → Except String String) (llmCount : Nat) :
    ∀ (fuel retries : Nat),
      (∀ k, retries ≤ k → k ≤ retries + fuel →
        ∃ t, gen k = .ok t ∧ (extract_bullets (pyStrip t)).length < llmCount) →
      ∃ nb, nb < llmCount ∧
        llm_attempt_loop gen llmCount retries fuel =
          .failure ("invalid bullet coverage bullets=" ++ toString nb
            ++ " commits=" ++ toString llmCount) (retries + fuel) := by
  intro fuel
  induction fuel with
  | zero =>
    intro retries h
    obtain ⟨t, hg, hlt⟩ := h retries (Nat.le_refl _) (Nat.le_refl _)
    refine ⟨(extract_bullets (pyStrip t)).length, hlt, ?_⟩
    rw [Nat.add_zero, llm_attempt_loop.eq_def]
    dsimp only
    rw [hg]
    dsimp only
    rw [if_neg (by omega)]
  | succ f ih =>
    intro retries h
    obtain ⟨t, hg, hlt⟩ := h retries (Nat.le_refl _) (by omega)
    obtain ⟨nb, hnb, heq⟩ := ih (retries + 1)
      (fun k hk1 hk2 => h k (by omega) (by omega))
    refine ⟨nb, hnb, ?_⟩
    rw [llm_attempt_loop.eq_def]
    dsimp only
    rw [hg]
    dsimp only
    rw [if_neg (by omega)]
    have harith : retries + (f + 1) = (retries + 1) + f := by omega
    rw [harith]
    exact heq

theorem coverage_msg_ne_empty (nb c : Nat) :
    ("invalid bullet coverage bullets=" ++ toString nb
      ++ " commits=" ++ toString c) ≠ "" := by
  intro h
  have := congrArg String.data h
  simp [String.data_append] at this

/-- **C6.** When the store returns a completed (non-blank) cached bullet for
every commit of a non-empty batch, `summarize_repo_async` returns `ok=true`
with exactly those cached bullets (each normalised by `strip`, which PgStore
has already applied), `retries = 0`, and performs zero backend calls; being a
pure function of these inputs, a second identical run returns the identical
result. -/
theorem c6_all_cached_zero_backend_calls
    (repoName sd ed : String) (commits : List CommitVal)
    (store : Option (Except String (List (Option String) × List (Option Nat))))
    (backend : String → Nat → Except String String) (maxR tokenB : Nat)
    (hS : store.isSome = true)
    (hlen : (cachedPrepared store commits.length).1.length = commits.length)
    (hall : ∀ b ∈ (cachedPrepared store commits.length).1, pyStrip (b.getD "") ≠ "")
    (hne : commits ≠ []) :
    (summarize_repo_async repoName sd ed commits store backend maxR tokenB).result.ok = true ∧
    (summarize_repo_async repoName sd ed commits store backend maxR tokenB).result.bullet_lines
      = (cachedPrepared store commits.length).1.map (fun b => pyStrip (b.getD "")) ∧
    (summarize_repo_async repoName sd ed commits store backend maxR tokenB).result.retries = 0 ∧
    (summarize_repo_async repoName sd ed commits store backend maxR tokenB).backend_calls = 0 := by
  have hmiss : missing_indexes (cachedPrepared store commits.length).1 = [] :=
    (missing_indexes_from_nil_iff _ 0).mpr hall
  have hpos : 0 < commits.length := by
    cases commits with
    | nil => exact absurd rfl hne
    | cons a l => simp
  simp only [summarize_repo_async]
  rw [if_pos ⟨hS, hmiss, hpos⟩]
  refine ⟨rfl, ?_, rfl, rfl⟩
  have hml : ((cachedPrepared store commits.length).1.map
      (fun b => pyStrip (b.getD ""))).length = commits.length := by
    rw [List.length_map, hlen]
  exact List.take_of_length_le (Nat.le_of_eq hml)

/-- **C6 witness**: a fully cached two-commit batch against a backend that
would raise if called. -/
theorem c6_witness :
    (summarize_repo_async "r" "s" "e" commitsTwo storeAllCached backendBoom 2 6000).result.ok = true ∧
    (summarize_repo_async "r" "s" "e" commitsTwo storeAllCached backendBoom 2 6000).result.bullet_lines
      = (cachedPrepared storeAllCached commitsTwo.length).1.map (fun b => pyStrip (b.getD "")) ∧
    (summarize_repo_async "r" "s" "e" commitsTwo storeAllCached backendBoom 2 6000).result.retries = 0 ∧
    (summarize_repo_async "r" "s" "e" commitsTwo storeAllCached backendBoom 2 6000).backend_calls = 0 :=
  c6_all_cached_zero_backend_calls "r" "s" "e" commitsTwo storeAllCached backendBoom 2 6000
    (by decide) (by decide) (by decide) (by decide)

/-- **C5.** If every attempt through `max_retries` yields a backend response
whose extracted bullets fall short of the number of commits sent to the
backend, `summarize_repo_async` returns `ok=false`, `retries = max_retries`,
an empty bullet list, and the coverage error text. -/
theorem c5_coverage_exhausted
    (repoName sd ed : String) (commits : List CommitVal)
    (store : Option (Except String (List (Option String) × List (Option Nat))))
    (backend : String → Nat → Except String String) (maxR tokenB : Nat)
    (hnoearly : ¬ (store.isSome = true ∧
      missing_indexes (cachedPrepared store commits.length).1 = [] ∧ 0 < commits.length))
    (hcover : ∀ k, k ≤ maxR → ∃ t,
      backend (summarize_repo_once repoName sd ed
        (commits_for_llm_of store commits) tokenB).1 k = .ok t ∧
      (extract_bullets (pyStrip t)).length < (commits_for_llm_of store commits).length) :
    (summarize_repo_async repoName sd ed commits store backend maxR tokenB).result.ok = false ∧
    (summarize_repo_async repoName sd ed commits store backend maxR tokenB).result.retries = maxR ∧
    (summarize_repo_async repoName sd ed commits store backend maxR tokenB).result.bullet_lines = [] ∧
    ∃ nb, nb < (commits_for_llm_of store commits).length ∧
      (summarize_repo_async repoName sd ed commits store backend maxR tokenB).result.error
        = "invalid bullet coverage bullets=" ++ toString nb
          ++ " commits=" ++ toString (commits_for_llm_of store commits).length := by
  obtain ⟨nb, hnb, hloop⟩ := loop_coverage_fail
    (backend (summarize_repo_once repoName sd ed (commits_for_llm_of store commits) tokenB).1)
    (commits_for_llm_of store commits).length maxR 0
    (fun k _ hk2 => hcover k (by omega))
  simp only [summarize_repo_async]
  rw [if_neg hnoearly, hloop]
  dsimp only
  rw [Nat.zero_add]
  refine ⟨rfl, rfl, rfl, nb, hnb, ?_⟩
  rw [if_neg (coverage_msg_ne_empty nb _)]

/-- **C5 witness**: one uncached commit, no store, a backend that always
returns an empty response. -/
theorem c5_witness :
    (summarize_repo_async "r" "s" "e" commitsOne none backendBlank 2 6000).result.ok = false ∧
    (summarize_repo_async "r" "s" "e" commitsOne none backendBlank 2 6000).result.retries = 2 ∧
    (summarize_repo_async "r" "s" "e" commitsOne none backendBlank 2 6000).result.bullet_lines = [] ∧
    ∃ nb, nb < (commits_for_llm_of none commitsOne).length ∧
      (summarize_repo_async "r" "s" "e" commitsOne none backendBlank 2 6000).result.error
        = "invalid bullet coverage bullets=" ++ toString nb
          ++ " commits=" ++ toString (commits_for_llm_of none commitsOne).length :=
  c5_coverage_exhausted "r" "s" "e" commitsOne none backendBlank 2 6000
    (by decide) (fun k _ => ⟨"", rfl, by decide⟩)

/-- **C3.** Whenever `summarize_repo_async` returns `ok=true`, its
`bullet_lines` has exactly `len(commits)` entries, and there is a list of
freshly generated bullets, truncated to the number of commits sent to the
backend (= the number of missing cache positions), that sits in order at the
missing positions, while every non-missing position still carries its cached
bullet. The length hypothesis on the store response is PgStore's contract
(`prepare_repo_commits` returns one entry per commit; see
`prepare_commits_lengths`). -/
theorem c3_ok_exact_splice
    (repoName sd ed : String) (commits : List CommitVal)
    (store : Option (Except String (List (Option String) × List (Option Nat))))
    (backend : String → Nat → Except String String) (maxR tokenB : Nat)
    (hlen : (cachedPrepared store commits.length).1.length = commits.length)
    (hok : (summarize_repo_async repoName sd ed commits store backend maxR tokenB).result.ok
      = true) :
    (summarize_repo_async repoName sd ed commits store backend maxR tokenB).result.bullet_lines.length
      = commits.length ∧
    ∃ fresh : List String,
      fresh.length = (missing_indexes (cachedPrepared store commits.length).1).length ∧
      (∀ k, k < fresh.length →
        (summarize_repo_async repoName sd ed commits store backend maxR tokenB).result.bullet_lines[
          (missing_indexes (cachedPrepared store commits.length).1).getD k 0]? = fresh[k]?) ∧
      (∀ i, i < commits.length →
        i ∉ missing_indexes (cachedPrepared store commits.length).1 →
        (summarize_repo_async repoName sd ed commits store backend maxR tokenB).result.bullet_lines[i]?
          = ((cachedPrepared store commits.length).1.map (fun b => pyStrip (b.getD "")))[i]?) := by
  have hstriplen : ((cachedPrepared store commits.length).1.map
      (fun b => pyStrip (b.getD ""))).length = commits.length := by
    rw [List.length_map, hlen]
  have hmissbound : ∀ j ∈ missing_indexes (cachedPrepared store commits.length).1,
      j < commits.length := by
    intro j hj
    have := missing_indexes_from_mem _ 0 j hj
    omega
  by_cases hcond : store.isSome = true ∧
      missing_indexes (cachedPrepared store commits.length).1 = [] ∧ 0 < commits.length
  · -- all-cached early return
    simp only [summarize_repo_async]
    rw [if_pos hcond]
    have htake := List.take_of_length_le (Nat.le_of_eq hstriplen)
    refine ⟨by simpa [htake] using hstriplen, [], by simp [hcond.2.1], ?_, ?_⟩
    · intro k hk
      simp at hk
    · intro i hi _
      show (((cachedPrepared store commits.length).1.map
        (fun b => pyStrip (b.getD ""))).take commits.length)[i]? = _
      rw [htake]
  · -- backend path
    simp only [summarize_repo_async] at hok ⊢
    rw [if_neg hcond] at hok ⊢
    cases hloop : llm_attempt_loop
        (backend (summarize_repo_once repoName sd ed
          (commits_for_llm_of store commits) tokenB).1)
        (commits_for_llm_of store commits).length 0 maxR with
    | failure e r =>
      rw [hloop] at hok
      simp at hok
    | success bullets r =>
      have hcov := loop_success_coverage _ _ maxR 0 bullets r hloop
      have hresl : (bullets.take (commits_for_llm_of store commits).length).length
          = (commits_for_llm_of store commits).length := by
        rw [List.length_take]
        omega
      rw [hloop] at hok
      dsimp only at hok ⊢
      by_cases hmerge : store.isSome = true ∧
          missing_indexes (cachedPrepared store commits.length).1 ≠ []
      · -- merged path
        rw [if_pos hmerge] at hok ⊢
        have hllm : (commits_for_llm_of store commits).length
            = (missing_indexes (cachedPrepared store commits.length).1).length := by
          simp only [commits_for_llm_of]
          rw [if_pos hmerge, List.length_map]
        have hsplen : (splice
            ((cachedPrepared store commits.length).1.map (fun b => pyStrip (b.getD "")))
            (missing_indexes (cachedPrepared store commits.length).1)
            (bullets.take (commits_for_llm_of store commits).length)).length
            = commits.length := by
          rw [splice_length, hstriplen]
        have htake := List.take_of_length_le (Nat.le_of_eq hsplen)
        refine ⟨by simpa [htake] using hsplen,
          bullets.take (commits_for_llm_of store commits).length,
          by rw [hresl, hllm], ?_, ?_⟩
        · intro k hk
          show ((splice _ _ _).take commits.length)[
            (missing_indexes (cachedPrepared store commits.length).1).getD k 0]? = _
          rw [htake]
          apply splice_getElem?_rank
          · exact missing_indexes_from_nodup _ 0
          · exact hk
          · rw [hresl, hllm]
          · intro j hj
            rw [hstriplen]
            exact hmissbound j hj
        · intro i hi hnm
          show ((splice _ _ _).take commits.length)[i]? = _
          rw [htake]
          exact splice_getElem?_not_mem _ _ _ i hnm
      · -- plain path: no store, or empty batch with store
        rw [if_neg hmerge] at hok ⊢
        have hclm : commits_for_llm_of store commits = commits := by
          simp only [commits_for_llm_of]
          rw [if_neg hmerge]
        have hlenr : (bullets.take (commits_for_llm_of store commits).length).length
            = commits.length := by
          rw [hresl, hclm]
        refine ⟨hlenr, bullets.take (commits_for_llm_of store commits).length, ?_, ?_, ?_⟩
        · -- fresh length = missing length
          cases hst : store with
          | none =>
            subst hst
            simp only [cachedPrepared, missing_indexes] at *
            rw [missing_indexes_from_replicate]
            simpa [hclm] using hresl
          | some st =>
            subst hst
            have hsome : (Option.some st).isSome = true := rfl
            by_cases hm : missing_indexes (cachedPrepared (some st) commits.length).1 = []
            · have hn : ¬ 0 < commits.length := fun hpos => hcond ⟨hsome, hm, hpos⟩
              rw [hm]
              simp only [List.length_nil]
              rw [hresl, hclm]
              omega
            · exact absurd ⟨hsome, hm⟩ hmerge
        · -- fresh positions
          intro k hk
          cases hst : store with
          | none =>
            subst hst
            have hkm : k < commits.length := by
              rw [hresl, hclm] at hk
              exact hk
            have hgd : (missing_indexes (cachedPrepared none commits.length).1).getD k 0 = k := by
              simp only [cachedPrepared, missing_indexes]
              rw [missing_indexes_from_replicate]
              rw [List.getD_eq_getElem?_getD,
                List.getElem?_eq_getElem (by simpa using hkm)]
              simp [List.getElem_range']
            rw [hgd]
          | some st =>
            subst hst
            have hsome : (Option.some st).isSome = true := rfl
            by_cases hm : missing_indexes (cachedPrepared (some st) commits.length).1 = []
            · have hn : ¬ 0 < commits.length := fun hpos => hcond ⟨hsome, hm, hpos⟩
              rw [hresl, hclm] at hk
              omega
            · exact absurd ⟨hsome, hm⟩ hmerge
        · -- cached positions (vacuous here)
          intro i hi hnm
          cases hst : store with
          | none =>
            subst hst
            exfalso
            apply hnm
            simp only [cachedPrepared, missing_indexes]
            rw [missing_indexes_from_replicate]
            rw [List.mem_range'_1]
            omega
          | some st =>
            subst hst
            have hsome : (Option.some st).isSome = true := rfl
            by_cases hm : missing_indexes (cachedPrepared (some st) commits.length).1 = []
            · have hn : ¬ 0 < commits.length := fun hpos => hcond ⟨hsome, hm, hpos⟩
              omega
            · exact absurd ⟨hsome, hm⟩ hmerge

/-- **C3 witness**: a two-commit batch with one cached bullet and a backend
producing the one missing bullet. -/
theorem c3_witness :
    (summarize_repo_async "r" "s" "e" commitsTwo storePartial backendFresh 2 6000).result.bullet_lines.length
      = commitsTwo.length ∧
    ∃ fresh : List String,
      fresh.length = (missing_indexes (cachedPrepared storePartial commitsTwo.length).1).length ∧
      (∀ k, k < fresh.length →
        (summarize_repo_async "r" "s" "e" commitsTwo storePartial backendFresh 2 6000).result.bullet_lines[
          (missing_indexes (cachedPrepared storePartial commitsTwo.length).1).getD k 0]? = fresh[k]?) ∧
      (∀ i, i < commitsTwo.length →
        i ∉ missing_indexes (cachedPrepared storePartial commitsTwo.length).1 →
        (summarize_repo_async "r" "s" "e" commitsTwo storePartial backendFresh 2 6000).result.bullet_lines[i]?
          = ((cachedPrepared storePartial commitsTwo.length).1.map (fun b => pyStrip (b.getD "")))[i]?) :=
  c3_ok_exact_splice "r" "s" "e" commitsTwo storePartial backendFresh 2 6000
    (by decide) (by decide)

/-- **C9.** When the window validates and any repository entry violates
`expected == count == len(detailed_commits)`, `generate_achievement_window`
raises the IntegrityError of the first violating entry and aborts the whole
request: no document is returned and zero summarization tasks run. -/
theorem c9_integrity_aborts_request
    (since untl : String) (nowMin : Nat) (repos : List RepoEntry) (client : Bool)
    (summarize : RepoEntry → RepoLLMResult) (p : Civil × Civil)
    (hv : validate_window since untl nowMin = .ok p)
    (hmis : ∃ r ∈ repos, integrity_mismatch r = true) :
    ∃ m, first_integrity_error repos = some m ∧
      generate_achievement_window since untl nowMin repos client summarize =
        (.error (.integrity m), ⟨1, 0⟩) := by
  have hne : repos ≠ [] := by
    rintro rfl
    obtain ⟨r, hr, _⟩ := hmis
    simp at hr
  cases hfi : first_integrity_error repos with
  | none =>
    exfalso
    simp only [first_integrity_error] at hfi
    have hall := List.findSome?_eq_none_iff.mp hfi
    obtain ⟨r, hr, hm⟩ := hmis
    have := hall r hr
    rw [if_pos hm] at this
    cases this
  | some m =>
    refine ⟨m, rfl, ?_⟩
    simp only [generate_achievement_window, hv]
    rw [if_neg hne, hfi]

/-- **C9 witness**: `expected=5` against 4 commits aborts with the
IntegrityError before any summarization. -/
theorem c9_witness :
    ∃ m, first_integrity_error [repoMismatch] = some m ∧
      generate_achievement_window "2026-03-10 09:00" "2026-03-10 10:00" nowExample
        [repoMismatch] true summarizeNone = (.error (.integrity m), ⟨1, 0⟩) :=
  c9_integrity_aborts_request "2026-03-10 09:00" "2026-03-10 10:00" nowExample
    [repoMismatch] true summarizeNone (⟨2026, 3, 10, 9, 0⟩, ⟨2026, 3, 10, 10, 0⟩)
    (by decide) ⟨repoMismatch, by decide, by decide⟩

theorem build_lines_length_of_obj (commits : List CommitVal)
    (h : ∀ c ∈ commits, c.isObj = true) :
    (build_repo_task_lines_non_ai commits).length = commits.length := by
  induction commits with
  | nil => rfl
  | cons c rest ih =>
    cases c with
    | raw =>
      have := h _ (List.mem_cons_self _ _)
      simp [CommitVal.isObj] at this
    | obj hsh m d fs =>
      have ihh := ih (fun x hx => h x (List.mem_cons_of_mem _ hx))
      simp only [build_repo_task_lines_non_ai, List.filterMap_cons] at ihh ⊢
      simp [ihh]

/-- Each emitted `_process_repo` entry for a repository of structured commit
records has exactly one bullet per commit on every source path, and its
fallback bullets are the deterministic non-AI lines. -/
theorem process_repo_entry (client : Bool) (summarize : RepoEntry → RepoLLMResult)
    (repo : RepoEntry) (hobj : ∀ c ∈ repo.detailed_commits, c.isObj = true)
    (entry : RepoOut) (h : process_repo client summarize repo = some entry) :
    entry.bullets.length = entry.commits_count ∧
    entry.commits_count = repo.detailed_commits.length ∧
    (entry.source ≠ "llm" →
      entry.bullets = (build_repo_task_lines_non_ai repo.detailed_commits).take
        repo.detailed_commits.length) := by
  unfold process_repo at h
  by_cases h0 : pyStrip repo.name = "" ∨ repo.detailed_commits.length = 0
  · rw [if_pos h0] at h
    cases h
  · rw [if_neg h0] at h
    have hbl : (build_repo_task_lines_non_ai repo.detailed_commits).take
        repo.detailed_commits.length = build_repo_task_lines_non_ai repo.detailed_commits :=
      List.take_of_length_le (Nat.le_of_eq (build_lines_length_of_obj _ hobj))
    have hlen2 : ((build_repo_task_lines_non_ai repo.detailed_commits).take
        repo.detailed_commits.length).length = repo.detailed_commits.length := by
      rw [hbl, build_lines_length_of_obj _ hobj]
    by_cases hcl : client = false
    · rw [if_pos hcl] at h
      cases h
      exact ⟨hlen2, rfl, fun _ => rfl⟩
    · rw [if_neg hcl] at h
      by_cases hres : (summarize repo).ok = true ∧
          repo.detailed_commits.length ≤ (summarize repo).bullet_lines.length
      · rw [if_pos hres] at h
        cases h
        refine ⟨?_, rfl, ?_⟩
        · dsimp only
          rw [List.length_take]
          have := hres.2
          omega
        · intro hs
          exact absurd rfl hs
      · rw [if_neg hres] at h
        cases h
        exact ⟨hlen2, rfl, fun _ => rfl⟩

/-- Dissection of a successful orchestrator run: the returned repository
entries are either empty or exactly the per-repository task outputs. -/
theorem generate_ok_repositories
    (since untl : String) (nowMin : Nat) (repos : List RepoEntry) (client : Bool)
    (summarize : RepoEntry → RepoLLMResult) (g : GenResult)
    (hok : (generate_achievement_window since untl nowMin repos client summarize).1 = .ok g) :
    g.repositories = [] ∨
    g.repositories = repos.filterMap (process_repo client summarize) := by
  cases hv : validate_window since untl nowMin with
  | error e =>
    simp only [generate_achievement_window, hv] at hok
    cases hok
  | ok p =>
    simp only [generate_achievement_window, hv] at hok
    by_cases hemp : repos = []
    · rw [if_pos hemp] at hok
      dsimp only at hok
      cases hok
      left
      rfl
    · rw [if_neg hemp] at hok
      cases hfi : first_integrity_error repos with
      | some m =>
        rw [hfi] at hok
        cases hok
      | none =>
        rw [hfi] at hok
        dsimp only at hok
        cases hok
        right
        rfl

/-- **C4.** For every repository entry in the result of a successful
`generate_achievement_window` run over structured commit records, the bullets
list has exactly `commits_count` entries — one bullet per input commit — on
every path (`llm`, `non_ai`, `non_ai_fallback`), and on the two non-AI paths
the bullets are the deterministic lines derived from the commit messages with
conventional-commit prefixes stripped. -/
theorem c4_one_bullet_per_commit
    (since untl : String) (nowMin : Nat) (repos : List RepoEntry) (client : Bool)
    (summarize : RepoEntry → RepoLLMResult)
    (hobj : ∀ r ∈ repos, ∀ c ∈ r.detailed_commits, c.isObj = true)
    (g : GenResult)
    (hok : (generate_achievement_window since untl nowMin repos client summarize).1 = .ok g) :
    ∀ entry ∈ g.repositories,
      entry.bullets.length = entry.commits_count ∧
      ∃ r ∈ repos, process_repo client summarize r = some entry ∧
        (entry.source ≠ "llm" →
          entry.bullets = (build_repo_task_lines_non_ai r.detailed_commits).take
            r.detailed_commits.length) := by
  intro entry hent
  rcases generate_ok_repositories since untl nowMin repos client summarize g hok with hrep | hrep
  · rw [hrep] at hent
    cases hent
  · rw [hrep] at hent
    rw [List.mem_filterMap] at hent
    obtain ⟨r, hr, hpr⟩ := hent
    have hper := process_repo_entry client summarize r (hobj r hr) entry hpr
    exact ⟨hper.1, r, hr, hpr, fun hs => hper.2.2 hs⟩

/-- **C4 witness**: the one entry of a single-repository run on the non-AI
path has exactly one bullet per commit. -/
theorem c4_witness :
    repoSingleEntry.bullets.length = repoSingleEntry.commits_count ∧
    ∃ r ∈ [repoSingle], process_repo false summarizeNone r = some repoSingleEntry ∧
      (repoSingleEntry.source ≠ "llm" →
        repoSingleEntry.bullets = (build_repo_task_lines_non_ai r.detailed_commits).take
          r.detailed_commits.length) :=
  c4_one_bullet_per_commit "2026-03-10 09:00" "2026-03-10 10:00" nowExample
    [repoSingle] false summarizeNone (by decide)
    ((c4ExampleRun).toOption.getD genDefault) rfl
    repoSingleEntry (by decide)

/-- **C1 counterexample.** The claim states that after awaiting the tasks the
orchestrator checks `total commits == total bullets` and raises a fatal
internal error on mismatch instead of returning a document. On a repository
entry whose `detailed_commits` holds a non-dict element (counts consistent, so
the integrity pass accepts it) the non-AI path produces 1 bullet for
`commits_count = 2`; `generate_achievement_window` nevertheless returns the
assembled document (`genTotals = some (2, 1)` — an `ok` result with mismatched
totals), because lines 147-175 of achievement_window_service.py contain no
such verification and no raise. -/
theorem c1_counterexample :
    genTotals (generate_achievement_window "2026-03-10 09:00" "2026-03-10 10:00"
      nowExample [repoMixedCommits] false summarizeNone).1 = some (2, 1) := by
  decide

/-- **C1 (amended).** `generate_achievement_window` performs no
commits-vs-bullets verification after awaiting the per-repository tasks: the
only errors it ever raises are the window ValidationError and the
per-repository IntegrityError, both raised before summarization; after the
await phase it returns the document unconditionally. The global equality
`total commits == total bullets` nevertheless holds for every successful run
over structured commit records, because step 3c makes each repository entry
carry exactly one bullet per commit. -/
theorem c1_no_global_verification
    (since untl : String) (nowMin : Nat) (repos : List RepoEntry) (client : Bool)
    (summarize : RepoEntry → RepoLLMResult) :
    (∀ e, (generate_achievement_window since untl nowMin repos client summarize).1 = .error e →
      (∃ m, e = .validation m) ∨ (∃ m, e = .integrity m)) ∧
    ((∀ r ∈ repos, ∀ c ∈ r.detailed_commits, c.isObj = true) →
      ∀ g, (generate_achievement_window since untl nowMin repos client summarize).1 = .ok g →
        total_commits_out g = total_bullets_out g) := by
  constructor
  · intro e he
    cases hv : validate_window since untl nowMin with
    | error e' =>
      simp only [generate_achievement_window, hv] at he
      cases he
      exact Or.inl ⟨e', rfl⟩
    | ok p =>
      simp only [generate_achievement_window, hv] at he
      by_cases hemp : repos = []
      · rw [if_pos hemp] at he
        cases he
      · rw [if_neg hemp] at he
        cases hfi : first_integrity_error repos with
        | some m =>
          rw [hfi] at he
          cases he
          exact Or.inr ⟨m, rfl⟩
        | none =>
          rw [hfi] at he
          dsimp only at he
          cases he
  · intro hobj g hok
    have hent : ∀ entry ∈ g.repositories, entry.bullets.length = entry.commits_count := by
      intro entry hm
      rcases generate_ok_repositories since untl nowMin repos client summarize g hok with hrep | hrep
      · rw [hrep] at hm
        cases hm
      · rw [hrep] at hm
        rw [List.mem_filterMap] at hm
        obtain ⟨r, hr, hpr⟩ := hm
        exact (process_repo_entry client summarize r (hobj r hr) entry hpr).1
    unfold total_commits_out total_bullets_out
    congr 1
    exact List.map_congr_left (fun entry hm => (hent entry hm).symm)

/-- **C1 witness** for the amended theorem: the only raised errors are
validation/integrity ones. -/
theorem c1_witness :
    (∃ m, GenError.validation "Invalid datetime format. Use YYYY-MM-DD HH:MM (WIB)."
        = GenError.validation m) ∨
    (∃ m, GenError.validation "Invalid datetime format. Use YYYY-MM-DD HH:MM (WIB)."
        = GenError.integrity m) :=
  (c1_no_global_verification "bad" "x" 0 [] false summarizeNone).1
    (GenError.validation "Invalid datetime format. Use YYYY-MM-DD HH:MM (WIB).") (by decide)
